import Mathlib

/-!
# MeArm controller (`your-scratch-extension/index.js`)

A shallow embedding of the serial protocol layer of `MeArmController`:
command framing (`sendCommand` and the methods that call it), the connection
life cycle (`connect`) and the position query (`reportPosition`).

Strings are lists of characters.  Every string the program handles is either
built from ASCII literals and rendered numbers, or is the output of
`TextDecoder.decode`, which is a sequence of Unicode scalar values; the
separator `'ok'` and all characters removed by `trim` lie in the Basic
Multilingual Plane, so positions of matches agree with those in the UTF-16
representation JavaScript uses.
-/

namespace MeArm

/-- JavaScript string values. -/
abbrev Text := List Char

/-- Contents of a `Uint8Array`: byte values. -/
abbrev Bytes := List Nat

/-! ## String primitives used by `reportPosition` -/

/-- The characters `String.prototype.trim` removes: ECMAScript `WhiteSpace`
(TAB, VT, FF, SP, NBSP, ZWNBSP and the category Zs) and `LineTerminator`
(LF, CR, LS, PS). -/
def isWhiteSpace (c : Char) : Bool :=
  let n := c.toNat
  n = 0x09 || n = 0x0A || n = 0x0B || n = 0x0C || n = 0x0D || n = 0x20 ||
  n = 0xA0 || n = 0x1680 || (0x2000 ≤ n && n ≤ 0x200A) ||
  n = 0x2028 || n = 0x2029 || n = 0x202F || n = 0x205F || n = 0x3000 || n = 0xFEFF

/-- The method `String.prototype.trim`: leading and trailing white space dropped. -/
def trim (s : Text) : Text :=
  ((s.dropWhile isWhiteSpace).reverse.dropWhile isWhiteSpace).reverse

/-- The loop of ECMAScript `StringIndexOf`: tries the `n` positions
`i, i+1, …` in ascending order and returns the first where `searchValue` is found. -/
def indexLoop (s searchValue : Text) : Nat → Nat → Option Nat
  | 0, _ => none
  | n + 1, i =>
    if (s.drop i).take searchValue.length = searchValue then some i
    else indexLoop s searchValue n (i + 1)

/-- ECMAScript `StringIndexOf(string, searchValue, fromIndex)`: the positions
tried are those `i` with `fromIndex ≤ i ≤ len - searchLen`. -/
def stringIndexOf (s searchValue : Text) (fromIndex : Nat) : Option Nat :=
  if searchValue = [] ∧ fromIndex ≤ s.length then some fromIndex
  else indexLoop s searchValue (s.length + 1 - searchValue.length - fromIndex) fromIndex

/-- The repeat loop of `String.prototype.split` for a non-empty separator: `i`
is the start of the current piece, `j` the position of the next match.  Each
round moves `i` forward, so `fuel = length + 1` rounds are enough. -/
def splitLoop (s sep : Text) : Nat → Nat → Option Nat → List Text
  | 0, i, _ => [s.drop i]
  | _ + 1, i, none => [s.drop i]
  | fuel + 1, i, some j =>
    ((s.drop i).take (j - i)) ::
      splitLoop s sep fuel (j + sep.length) (stringIndexOf s sep (j + sep.length))

/-- The call `s.split(sep)` with a string separator and no limit. -/
def split (s sep : Text) : List Text :=
  if sep = [] then s.map (fun c => [c])
  else if s = [] then [s]
  else splitLoop s sep (s.length + 1) 0 (stringIndexOf s sep 0)

/-- The separator literal `'ok'` of `response.split('ok')`. -/
def sentinel : Text := ['o', 'k']

/-! ## Platform -/

/-- An error object, as thrown by the platform or delivered by a rejected promise. -/
structure Err where
  message : Text
deriving DecidableEq, Repr

/-- The platform functions the program calls on values, for a type `ν` of
JavaScript numbers.  `numToString_noLF` records the one fact about
`Number::toString` that framing relies on: its output is made of digits, `.`,
`-`, `+`, `e` and the words `NaN` and `Infinity`, so it holds no line feed. -/
structure Platform (ν : Type) where
  /-- The operation `ToString`, as a template literal applies it to an argument -/
  numToString : ν → Text
  /-- The value of a numeric literal of the source (`120`, `30`) -/
  num : Nat → ν
  /-- The call `new TextEncoder().encode(data)` -/
  encode : Text → Bytes
  /-- The call `new TextDecoder().decode(value)` -/
  decode : Bytes → Text
  numToString_noLF : ∀ a, '\n' ∉ numToString a

/-- How a promise made by the platform settles: fulfilled with a value,
rejected with an error, or not at all. -/
inductive Reply (α : Type) where
  | ok (a : α)
  | fail (err : Err)
  | never
deriving DecidableEq, Repr

/-- How a promise returned by the program settles. -/
inductive Settled (α : Type) where
  | fulfilled (v : α)
  | rejected (err : Err)
  | pending
deriving DecidableEq, Repr

/-- Observable actions of the program on its collaborators (`log`, `alert`,
`navigator.serial`, the port's streams, timers).  `getReader` and `getWriter`
stand for calls that returned a handle; `unhandledRejection` marks a rejected
promise that the program left without a handler. -/
inductive Effect where
  | logLog (msg : Text)
  | logWarn (msg : Text)
  | logError (msg : Text) (err : Option Err)
  | alert (msg : Text)
  | requestPort
  | openPort (baudRate : Nat)
  | getWriter
  | write (buffer : Bytes)
  | setTimeout (ms : Nat)
  | getReader
  | read
  | releaseLock
  | unhandledRejection (err : Err)
deriving DecidableEq, Repr

/-! ## Controller state -/

/-- A `SerialPort` object: `readable` tells whether `port.readable` is a stream
(it is `null` on a port that is not open or has failed). -/
structure SerialPort where
  id : Nat
  readable : Bool
deriving DecidableEq, Repr

/-- The writer returned by `port.writable.getWriter()`. -/
structure Writer where
  id : Nat
deriving DecidableEq, Repr

/-- The fields `port` and `writer` of `MeArmController` (`null` is `none`).
The constructor also stores `runtime`, which no method reads. -/
structure MeArmController where
  port : Option SerialPort
  writer : Option Writer
deriving DecidableEq, Repr

/-- The state `constructor(runtime)` builds. -/
def MeArmController.new : MeArmController := ⟨none, none⟩

/-- What a method hands back to its caller. -/
inductive Returned where
  /-- no value (`undefined`) -/
  | undefined
  /-- a plain string -/
  | value (s : Text)
  /-- the promise `new Promise(resolve => setTimeout(resolve, ms))`, which is
  fulfilled when `ms` milliseconds have passed and not before -/
  | timer (ms : Nat)
  /-- a promise chain and the way it settles -/
  | promise (s : Settled Text)
  /-- the call threw -/
  | threw (err : Err)
deriving DecidableEq, Repr

/-- The record of one method call: the effects performed before the call
returns (`sync`), the effects of its promise callbacks in the order they run
(`async`), the controller fields when those have run, and the returned value. -/
structure Run where
  sync : List Effect
  async : List Effect
  ctrl : MeArmController
  ret : Returned
deriving DecidableEq, Repr

/-- All effects of a call. -/
def Run.effects (r : Run) : List Effect := r.sync ++ r.async

/-! ## `connect` -/

/-- What the platform does during one call of `connect`. -/
structure ConnectEnv where
  /-- the test `'serial' in navigator` -/
  serialSupported : Bool
  /-- the promise of `navigator.serial.requestPort()` -/
  requestPort : Reply SerialPort
  /-- the promise of `port.open({ baudRate: 115200 })` -/
  openPort : Reply Unit
  /-- the call `this.port.writable.getWriter()`, which returns a writer or throws -/
  getWriter : Except Err Writer

/-- The `.catch` handler of `connect`. -/
def connectCatch (err : Err) : List Effect :=
  [.logError ("There was an error: ".toList ++ err.message) none]

/-- The method `connect()`. -/
def connect (c : MeArmController) (env : ConnectEnv) : Run :=
  if env.serialSupported then
    let sync := [.logLog "Requesting serial port...".toList, .requestPort]
    match env.requestPort with
    | .never => ⟨sync, [], c, .undefined⟩
    | .fail err => ⟨sync, connectCatch err, c, .undefined⟩
    | .ok port =>
      -- first `.then`: `this.port = port; return port.open({ baudRate: 115200 })`
      let c₁ : MeArmController := { c with port := some port }
      match env.openPort with
      | .never => ⟨sync, [.openPort 115200], c₁, .undefined⟩
      | .fail err => ⟨sync, .openPort 115200 :: connectCatch err, c₁, .undefined⟩
      | .ok () =>
        -- second `.then`
        match env.getWriter with
        | .error err =>
          ⟨sync, [.openPort 115200, .logLog "Serial port opened.".toList] ++ connectCatch err,
            c₁, .undefined⟩
        | .ok w =>
          ⟨sync, [.openPort 115200, .logLog "Serial port opened.".toList, .getWriter,
              .logLog "MeArm connected via Web Serial!".toList],
            { c₁ with writer := some w }, .undefined⟩
  else
    ⟨[.alert "Web Serial API not supported in this browser. Please use Chrome or Edge.".toList],
      [], c, .undefined⟩

/-! ## `sendCommand` and the commands built on it -/

/-- What the platform does during one command: how `writer.write` settles,
whether `readable.getReader()` returns a reader or throws, and how
`reader.read()` settles (`value` is `none` for `undefined`; the field `done`
is not inspected by the program). -/
structure Env where
  write : Reply Unit
  getReader : Except Err Unit
  read : Reply (Option Bytes × Bool)

/-- What `sendCommand` returns: `undefined`, or the promise
`writer.write(buffer).then(...)`. -/
structure Sent where
  sync : List Effect
  async : List Effect
  promise : Option (Settled Unit)
deriving DecidableEq, Repr

/-- The method `sendCommand(command)`. -/
def sendCommand (P : Platform ν) (c : MeArmController) (env : Env) (command : Text) : Sent :=
  match c.writer with
  | none => ⟨[.logWarn "MeArm not connected.".toList], [], none⟩
  | some _ =>
    let data := command ++ ['\n']
    let buffer := P.encode data
    match env.write with
    | .ok () => ⟨[.write buffer], [.logLog ("Sent command: ".toList ++ data)], some (.fulfilled ())⟩
    | .fail err => ⟨[.write buffer], [], some (.rejected err)⟩
    | .never => ⟨[.write buffer], [], some .pending⟩

/-- A call `this.sendCommand(gcode)` whose result is dropped, followed by
`return new Promise(resolve => setTimeout(resolve, ms))`.  A rejection of the
dropped promise has no handler. -/
def sendThenWait (c : MeArmController) (s : Sent) (ms : Nat) : Run :=
  ⟨s.sync ++ [.setTimeout ms],
    s.async ++ (match s.promise with
      | some (.rejected err) => [.unhandledRejection err]
      | _ => []),
    c, .timer ms⟩

/-- The method `moveLinearly({ X, Y, Z, F })`. -/
def moveLinearly (P : Platform ν) (c : MeArmController) (env : Env) (X Y Z F : ν) : Run :=
  let gcode := "G1 X".toList ++ P.numToString X ++ " Y".toList ++ P.numToString Y ++
    " Z".toList ++ P.numToString Z ++ " F".toList ++ P.numToString F
  sendThenWait c (sendCommand P c env gcode) 500

/-- The method `Jumpto({ X, Y, Z, F })`. -/
def Jumpto (P : Platform ν) (c : MeArmController) (env : Env) (X Y Z F : ν) : Run :=
  let gcode := "G0 X".toList ++ P.numToString X ++ " Y".toList ++ P.numToString Y ++
    " Z".toList ++ P.numToString Z ++ " F".toList ++ P.numToString F
  sendThenWait c (sendCommand P c env gcode) 500

/-- The method `setGripper({ ANGLE })`. -/
def setGripper (P : Platform ν) (c : MeArmController) (env : Env) (ANGLE : ν) : Run :=
  let gcode := "M106 S".toList ++ P.numToString ANGLE
  sendThenWait c (sendCommand P c env gcode) 300

/-- The method `openGripper()`. -/
def openGripper (P : Platform ν) (c : MeArmController) (env : Env) : Run :=
  setGripper P c env (P.num 120)

/-- The method `closeGripper()`. -/
def closeGripper (P : Platform ν) (c : MeArmController) (env : Env) : Run :=
  setGripper P c env (P.num 30)

/-- The method `AbsMode()`. -/
def AbsMode (P : Platform ν) (c : MeArmController) (env : Env) : Run :=
  sendThenWait c (sendCommand P c env "G90".toList) 50

/-- The method `RelMode()`. -/
def RelMode (P : Platform ν) (c : MeArmController) (env : Env) : Run :=
  sendThenWait c (sendCommand P c env "G91".toList) 50

/-! ## `reportPosition` -/

/-- The expression `response.split('ok')[0].trim()`.  Indexing yields
`undefined` on an empty array, on which `.trim()` throws. -/
def parseResponse (response : Text) : Except Err Text :=
  match (split response sentinel)[0]? with
  | some first => .ok (trim first)
  | none => .error ⟨"Cannot read properties of undefined (reading 'trim')".toList⟩

/-- The `.catch` handler attached to `reader.read().then(...)`. -/
def readCatch (err : Err) : List Effect × Settled Text :=
  ([.releaseLock, .logError "Read error:".toList (some err)],
    .fulfilled "ERROR: Read failed".toList)

/-- The last `.then` callback of `reportPosition`: take a reader, read once,
and handle the outcome.  Gives the effects in order and the settlement of the
promise the callback returns. -/
def receive (P : Platform ν) (env : Env) : List Effect × Settled Text :=
  match env.getReader with
  | .error err => ([], .rejected err)
  | .ok () =>
    match env.read with
    | .never => ([.getReader, .read], .pending)
    | .fail err => (.getReader :: .read :: (readCatch err).1, (readCatch err).2)
    | .ok (value, _) =>
      -- `.then(({ value, done }) => ...)`: a `Uint8Array` is truthy whatever its length
      match value with
      | some bytes =>
        match parseResponse (P.decode bytes) with
        | .ok position => ([.getReader, .read, .releaseLock], .fulfilled position)
        | .error err =>
          (.getReader :: .read :: .releaseLock :: (readCatch err).1, (readCatch err).2)
      | none => ([.getReader, .read, .releaseLock], .fulfilled "No response".toList)

/-- The method `reportPosition()`. -/
def reportPosition (P : Platform ν) (c : MeArmController) (env : Env) : Run :=
  match c.writer with
  | none => ⟨[], [], c, .value "ERROR: Not connected".toList⟩
  | some _ =>
    match c.port with
    | none => ⟨[], [], c, .threw ⟨"Cannot read properties of null (reading 'readable')".toList⟩⟩
    | some port =>
      if !port.readable then ⟨[], [], c, .value "ERROR: Not connected".toList⟩
      else
        let s := sendCommand P c env "M114".toList
        match s.promise with
        | none =>
          ⟨s.sync, s.async, c,
            .threw ⟨"Cannot read properties of undefined (reading 'then')".toList⟩⟩
        | some (.rejected err) => ⟨s.sync, s.async, c, .promise (.rejected err)⟩
        | some .pending => ⟨s.sync, s.async, c, .promise .pending⟩
        | some (.fulfilled ()) =>
          ⟨s.sync, s.async ++ [.setTimeout 200] ++ (receive P env).1, c,
            .promise (receive P env).2⟩

/-- Whether the stream's read lock is held after a sequence of effects:
`getReader` takes it and `releaseLock` gives it back. -/
def lockHeld (es : List Effect) : Bool :=
  es.foldl (fun held e =>
    match e with
    | .getReader => true
    | .releaseLock => false
    | _ => held) false

/-! ## Command blocks -/

/-- The blocks of `getInfo()` that talk to the device, with their arguments. -/
inductive Command (ν : Type) where
  | moveLinearly (X Y Z F : ν)
  | Jumpto (X Y Z F : ν)
  | setGripper (ANGLE : ν)
  | openGripper
  | closeGripper
  | AbsMode
  | RelMode
  | reportPosition
deriving DecidableEq, Repr

/-- The host runs a block by calling the method its opcode names. -/
def Command.run (P : Platform ν) (c : MeArmController) (env : Env) : Command ν → Run
  | .moveLinearly X Y Z F => MeArm.moveLinearly P c env X Y Z F
  | .Jumpto X Y Z F => MeArm.Jumpto P c env X Y Z F
  | .setGripper ANGLE => MeArm.setGripper P c env ANGLE
  | .openGripper => MeArm.openGripper P c env
  | .closeGripper => MeArm.closeGripper P c env
  | .AbsMode => MeArm.AbsMode P c env
  | .RelMode => MeArm.RelMode P c env
  | .reportPosition => MeArm.reportPosition P c env

/-- The commands that return a timer promise and no value. -/
def Command.fireAndForget : Command ν → Bool
  | .reportPosition => false
  | _ => true

/-- A block run by the host at a given time (milliseconds). -/
structure Invocation (ν : Type) where
  time : Nat
  cmd : Command ν
  env : Env

/-- An effect with the time of the call that performed it. -/
structure Stamped where
  time : Nat
  effect : Effect
deriving DecidableEq, Repr

/-- A sequence of calls on one controller: each call starts from the fields
the calls before it left, and its synchronous effects happen at its time. -/
def session (P : Platform ν) (c : MeArmController) : List (Invocation ν) → List Stamped
  | [] => []
  | i :: rest =>
    (i.cmd.run P c i.env).sync.map (Stamped.mk i.time) ++
      session P (i.cmd.run P c i.env).ctrl rest

/-! ## A platform instance on integers and ASCII -/

/-- The digit characters of `n`, most significant first, in front of `acc`. -/
def natDigits : Nat → Nat → Text → Text
  | 0, _, acc => acc
  | fuel + 1, n, acc =>
    if n / 10 = 0 then Char.ofNat (48 + n % 10) :: acc
    else natDigits fuel (n / 10) (Char.ofNat (48 + n % 10) :: acc)

/-- The operation `Number::toString` on an integer (magnitude below 10²¹): the decimal
numeral, with `-` in front of a negative one. -/
def decimal : Int → Text
  | .ofNat n => natDigits (n + 1) n []
  | .negSucc n => '-' :: natDigits (n + 2) (n + 1) []

/-- UTF-8 encoding of one character. -/
def utf8EncodeChar (c : Char) : Bytes :=
  let n := c.toNat
  if n < 0x80 then [n]
  else if n < 0x800 then [0xC0 + n / 0x40, 0x80 + n % 0x40]
  else if n < 0x10000 then [0xE0 + n / 0x1000, 0x80 + n / 0x40 % 0x40, 0x80 + n % 0x40]
  else [0xF0 + n / 0x40000, 0x80 + n / 0x1000 % 0x40, 0x80 + n / 0x40 % 0x40, 0x80 + n % 0x40]

/-- UTF-8 decoding restricted to ASCII input: a byte below 0x80 is that
character.  Any other byte is shown as U+FFFD, where the browser's decoder may
combine several bytes into one character; this instance is evaluated on ASCII
input only. -/
def asciiDecode (bytes : Bytes) : Text :=
  bytes.map (fun b => if b < 0x80 then Char.ofNat b else Char.ofNat 0xFFFD)

/-- Integers as numbers, rendered in decimal; text encoded in UTF-8. -/
def intPlatform : Platform Int where
  numToString := decimal
  num := fun n => (n : Int)
  encode := fun t => t.flatMap utf8EncodeChar
  decode := asciiDecode
  numToString_noLF := by
    have digits : ∀ (fuel n : Nat) (acc : Text), '\n' ∉ acc → '\n' ∉ natDigits fuel n acc := by
      intro fuel
      induction fuel with
      | zero =>
        intro n acc h
        simpa [natDigits] using h
      | succ k ih =>
        intro n acc h
        have hd : '\n' ≠ Char.ofNat (48 + n % 10) := by
          have : n % 10 < 10 := Nat.mod_lt _ (by decide)
          interval_cases (n % 10) <;> decide
        unfold natDigits
        split
        · simp [hd, h]
        · exact ih _ _ (by simp [hd, h])
    intro i
    cases i with
    | ofNat n => exact digits _ _ _ (by simp)
    | negSucc n =>
      have := digits (n + 2) (n + 1) [] (by simp)
      simp [decimal, this]

/-! ## Sample states -/

/-- A controller that holds a writer and an open port. -/
def connected : MeArmController := ⟨some ⟨1, true⟩, some ⟨1⟩⟩

/-- A platform that acknowledges the write and answers the read with `reply`. -/
def answering (reply : Text) : Env :=
  ⟨.ok (), .ok (), .ok (some (intPlatform.encode reply), false)⟩

/-- A controller that has never been connected: the constructor's state. -/
def fresh : MeArmController := MeArmController.new

/-- A platform on which `writer.write` rejects. -/
def writeFailing : Env := ⟨.fail ⟨"NetworkError".toList⟩, .ok (), .never⟩

/-! ## Occurrences -/

/-- The string `searchValue` is found in `s` at position `k`. -/
def matchAt (s searchValue : Text) (k : Nat) : Prop :=
  (s.drop k).take searchValue.length = searchValue

instance (s searchValue : Text) (k : Nat) : Decidable (matchAt s searchValue k) :=
  inferInstanceAs (Decidable ((s.drop k).take searchValue.length = searchValue))

/-! ## Facts about the string primitives -/

theorem indexLoop_spec (s sv : Text) (n i : Nat) :
    match indexLoop s sv n i with
    | some j => i ≤ j ∧ j < i + n ∧ matchAt s sv j ∧ ∀ k, i ≤ k → k < j → ¬ matchAt s sv k
    | none => ∀ k, i ≤ k → k < i + n → ¬ matchAt s sv k := by
  induction n generalizing i with
  | zero =>
    simp only [indexLoop]
    intro k h₁ h₂
    omega
  | succ m ih =>
    unfold indexLoop
    by_cases h : (s.drop i).take sv.length = sv
    · rw [if_pos h]
      exact ⟨le_refl _, by omega, h, fun k h₁ h₂ => by omega⟩
    · rw [if_neg h]
      have := ih (i + 1)
      cases hres : indexLoop s sv m (i + 1) with
      | none =>
        rw [hres] at this
        intro k h₁ h₂
        rcases Nat.eq_or_lt_of_le h₁ with rfl | hlt
        · exact h
        · exact this k hlt (by omega)
      | some j =>
        rw [hres] at this
        obtain ⟨a, b, c, d⟩ := this
        refine ⟨by omega, by omega, c, ?_⟩
        intro k h₁ h₂
        rcases Nat.eq_or_lt_of_le h₁ with rfl | hlt
        · exact h
        · exact d k hlt h₂

theorem matchAt_of_eq_append (s sv a b : Text) (h : s = a ++ sv ++ b) :
    matchAt s sv a.length := by
  subst h
  simp [matchAt]

theorem eq_append_of_matchAt (s sv : Text) (k : Nat) (h : matchAt s sv k) (hk : k ≤ s.length) :
    s = s.take k ++ sv ++ s.drop (k + sv.length) ∧ (s.take k).length = k := by
  constructor
  · have h₁ : s.drop k = sv ++ (s.drop k).drop sv.length := by
      conv_lhs => rw [← List.take_append_drop sv.length (s.drop k)]
      rw [h]
    have h₂ : s = s.take k ++ s.drop k := (List.take_append_drop k s).symm
    rw [List.drop_drop] at h₁
    conv_lhs => rw [h₂, h₁]
    simp [Nat.add_comm]
  · simp [hk]

theorem split_head (s sep : Text) (hsep : sep ≠ []) :
    (split s sep)[0]? =
      some (match stringIndexOf s sep 0 with
        | none => s
        | some j => s.take j) := by
  unfold split
  rw [if_neg hsep]
  by_cases hs : s = []
  · subst hs
    have : stringIndexOf [] sep 0 = none := by
      unfold stringIndexOf
      rw [if_neg (by simp [hsep])]
      cases sep with
      | nil => exact absurd rfl hsep
      | cons a l => simp [indexLoop]
    simp [this]
  · rw [if_neg hs]
    cases stringIndexOf s sep 0 with
    | none => simp [splitLoop]
    | some j => simp [splitLoop]

/-- Without an occurrence of the separator, the first piece is the whole string. -/
theorem split_head_of_not_infix (s sep : Text) (hsep : sep ≠ []) (h : ¬ sep <:+: s) :
    (split s sep)[0]? = some s := by
  rw [split_head s sep hsep]
  have hspec := indexLoop_spec s sep (s.length + 1 - sep.length - 0) 0
  unfold stringIndexOf
  rw [if_neg (by simp [hsep])]
  cases hres : indexLoop s sep (s.length + 1 - sep.length - 0) 0 with
  | none => rfl
  | some j =>
    exfalso
    rw [hres] at hspec
    obtain ⟨_, hj, hm, _⟩ := hspec
    have := (eq_append_of_matchAt s sep j hm (by omega)).1
    exact h ⟨s.take j, s.drop (j + sep.length), this.symm⟩

/-- With an occurrence, the first piece is what stands before the first one. -/
theorem split_head_of_first (s sep pre post : Text) (hsep : sep ≠ [])
    (h : s = pre ++ sep ++ post)
    (hfirst : ∀ a b, s = a ++ sep ++ b → pre.length ≤ a.length) :
    (split s sep)[0]? = some pre := by
  rw [split_head s sep hsep]
  have hspec := indexLoop_spec s sep (s.length + 1 - sep.length - 0) 0
  have hlen : s.length = pre.length + sep.length + post.length := by
    rw [h]; simp [Nat.add_assoc]
  have hpos : 0 < sep.length := List.length_pos.mpr hsep
  unfold stringIndexOf
  rw [if_neg (by simp [hsep])]
  cases hres : indexLoop s sep (s.length + 1 - sep.length - 0) 0 with
  | none =>
    exfalso
    rw [hres] at hspec
    exact hspec pre.length (Nat.zero_le _) (by omega) (matchAt_of_eq_append s sep pre post h)
  | some j =>
    rw [hres] at hspec
    obtain ⟨_, hj, hm, hmin⟩ := hspec
    have hdec := eq_append_of_matchAt s sep j hm (by omega)
    have h₁ : pre.length ≤ j := by
      have := hfirst _ _ hdec.1
      rwa [hdec.2] at this
    have h₂ : j ≤ pre.length := by
      by_contra hlt
      exact hmin pre.length (Nat.zero_le _) (by omega) (matchAt_of_eq_append s sep pre post h)
    have hj' : j = pre.length := le_antisymm h₂ h₁
    show some (s.take j) = some pre
    rw [hj', h]
    simp

/-- What `trim` removes is white space, and what it leaves neither starts nor
ends with white space. -/
theorem trim_spec (s : Text) :
    ∃ l r, s = l ++ trim s ++ r ∧ (∀ x ∈ l, isWhiteSpace x = true) ∧
      (∀ x ∈ r, isWhiteSpace x = true) ∧
      (∀ x, (trim s).head? = some x → isWhiteSpace x = false) ∧
      (∀ x, (trim s).getLast? = some x → isWhiteSpace x = false) := by
  set m := s.dropWhile isWhiteSpace with hm
  have hs : s = s.takeWhile isWhiteSpace ++ m := (List.takeWhile_append_dropWhile _ _).symm
  have hmr : m.reverse = m.reverse.takeWhile isWhiteSpace ++ m.reverse.dropWhile isWhiteSpace :=
    (List.takeWhile_append_dropWhile _ _).symm
  have hm2 : m = trim s ++ (m.reverse.takeWhile isWhiteSpace).reverse := by
    have := congrArg List.reverse hmr
    rw [List.reverse_reverse, List.reverse_append] at this
    exact this
  have hlast : ∀ x, (trim s).getLast? = some x → isWhiteSpace x = false := by
    intro x hx
    have h₁ : (m.reverse.dropWhile isWhiteSpace).head? = some x := by
      have : trim s = (m.reverse.dropWhile isWhiteSpace).reverse := rfl
      rw [this, List.getLast?_reverse] at hx
      exact hx
    have h₂ := List.head?_dropWhile_not isWhiteSpace m.reverse
    rw [h₁] at h₂
    exact h₂
  refine ⟨s.takeWhile isWhiteSpace, (m.reverse.takeWhile isWhiteSpace).reverse, ?_, ?_, ?_, ?_, hlast⟩
  · conv_lhs => rw [hs, hm2]
    simp
  · intro x hx
    exact List.mem_takeWhile_imp hx
  · intro x hx
    exact List.mem_takeWhile_imp (List.mem_reverse.mp hx)
  · intro x hx
    have h₂ := List.head?_dropWhile_not isWhiteSpace s
    have h₃ : m.head? = some x := by
      rw [hm2]
      cases ht : trim s with
      | nil => rw [ht] at hx; simp at hx
      | cons a t => rw [ht] at hx; simpa using hx
    rw [← hm, h₃] at h₂
    exact h₂

/-! ## Facts about the methods -/

theorem sentinel_ne_nil : sentinel ≠ [] := by decide

theorem parseResponse_eq (t : Text) :
    ∃ first, (split t sentinel)[0]? = some first ∧ parseResponse t = .ok (trim first) := by
  have h := split_head t sentinel sentinel_ne_nil
  exact ⟨_, h, by simp [parseResponse, h]⟩

/-- The run of `reportPosition` on a controller holding a writer and a readable
port, when the write is acknowledged. -/
theorem reportPosition_connected (P : Platform ν) (c : MeArmController) (env : Env)
    (w : Writer) (port : SerialPort) (hw : c.writer = some w) (hp : c.port = some port)
    (hr : port.readable = true) (hwrite : env.write = .ok ()) :
    reportPosition P c env =
      ⟨[.write (P.encode ("M114".toList ++ ['\n']))],
        [.logLog ("Sent command: ".toList ++ ("M114".toList ++ ['\n']))] ++ [.setTimeout 200] ++
          (receive P env).1,
        c, .promise (receive P env).2⟩ := by
  simp [reportPosition, sendCommand, hw, hp, hr, hwrite]

theorem receive_chunk (P : Platform ν) (env : Env) (bytes : Bytes) (done : Bool)
    (hreader : env.getReader = .ok ()) (hread : env.read = .ok (some bytes, done)) :
    ∃ first, (split (P.decode bytes) sentinel)[0]? = some first ∧
      receive P env = ([.getReader, .read, .releaseLock], .fulfilled (trim first)) := by
  obtain ⟨first, h₁, h₂⟩ := parseResponse_eq (P.decode bytes)
  exact ⟨first, h₁, by simp [receive, hreader, hread, h₂]⟩

/-- C1: when the read delivers a chunk, `reportPosition` resolves to the trimmed
`position`, where `position` is the decoded text `t` itself if `"ok"` does not
occur in `t`, and the part of `t` before the first occurrence of `"ok"` if it
does; trimming removes white space only and leaves none at either end; the text
`"POS:10,20,30ok\n"` gives `"POS:10,20,30"`. -/
theorem reportPosition_reports_text_before_ok (P : Platform ν) (c : MeArmController)
    (env : Env) (w : Writer) (port : SerialPort) (bytes : Bytes) (done : Bool)
    (hw : c.writer = some w) (hp : c.port = some port) (hr : port.readable = true)
    (hwrite : env.write = .ok ()) (hreader : env.getReader = .ok ())
    (hread : env.read = .ok (some bytes, done)) :
    ∃ position : Text,
      (reportPosition P c env).ret = .promise (.fulfilled (trim position)) ∧
      (¬ sentinel <:+: P.decode bytes → position = P.decode bytes) ∧
      (∀ pre post, P.decode bytes = pre ++ sentinel ++ post →
        (∀ a b, P.decode bytes = a ++ sentinel ++ b → pre.length ≤ a.length) →
        position = pre) ∧
      (∃ l r, position = l ++ trim position ++ r ∧
        (∀ x ∈ l, isWhiteSpace x = true) ∧ (∀ x ∈ r, isWhiteSpace x = true) ∧
        (∀ x, (trim position).head? = some x → isWhiteSpace x = false) ∧
        (∀ x, (trim position).getLast? = some x → isWhiteSpace x = false)) ∧
      (P.decode bytes = "POS:10,20,30ok\n".toList →
        (reportPosition P c env).ret = .promise (.fulfilled "POS:10,20,30".toList)) := by
  obtain ⟨first, hfirst, hrecv⟩ := receive_chunk P env bytes done hreader hread
  have hret : (reportPosition P c env).ret = .promise (.fulfilled (trim first)) := by
    rw [reportPosition_connected P c env w port hw hp hr hwrite, hrecv]
  refine ⟨first, hret, ?_, ?_, trim_spec first, ?_⟩
  · intro hno
    have := split_head_of_not_infix _ _ sentinel_ne_nil hno
    rw [hfirst] at this
    exact Option.some.inj this
  · intro pre post hdec hmin
    have := split_head_of_first _ _ pre post sentinel_ne_nil hdec hmin
    rw [hfirst] at this
    exact Option.some.inj this
  · intro ht
    rw [hret]
    rw [ht] at hfirst
    have h₂ : (split "POS:10,20,30ok\n".toList sentinel)[0]? = some "POS:10,20,30".toList := by
      decide
    rw [h₂] at hfirst
    rw [← Option.some.inj hfirst]
    decide

theorem reportPosition_reports_text_before_ok_witness :
    (reportPosition intPlatform connected (answering "POS:10,20,30ok\n".toList)).ret =
      .promise (.fulfilled "POS:10,20,30".toList) := by
  obtain ⟨_, _, _, _, _, h⟩ :=
    reportPosition_reports_text_before_ok intPlatform connected
      (answering "POS:10,20,30ok\n".toList) ⟨1⟩ ⟨1, true⟩
      (intPlatform.encode "POS:10,20,30ok\n".toList) false rfl rfl rfl rfl rfl rfl
  exact h (by decide)

/-! ### Framing -/

theorem getLast?_snoc (l : Text) (a : Char) : (l ++ [a]).getLast? = some a := by
  simp

theorem sendCommand_connected (P : Platform ν) (c : MeArmController) (env : Env) (w : Writer)
    (hw : c.writer = some w) (command : Text) :
    (sendCommand P c env command).sync = [.write (P.encode (command ++ ['\n']))] ∧
      ∀ b, Effect.write b ∉ (sendCommand P c env command).async := by
  unfold sendCommand
  rw [hw]
  cases env.write <;> simp

theorem sendCommand_not_connected (P : Platform ν) (c : MeArmController) (env : Env)
    (hw : c.writer = none) (command : Text) :
    sendCommand P c env command = ⟨[.logWarn "MeArm not connected.".toList], [], none⟩ := by
  unfold sendCommand
  rw [hw]

theorem sendThenWait_connected (P : Platform ν) (c : MeArmController) (env : Env) (w : Writer)
    (hw : c.writer = some w) (command : Text) (ms : Nat) :
    (sendThenWait c (sendCommand P c env command) ms).sync =
        [.write (P.encode (command ++ ['\n'])), .setTimeout ms] ∧
      (∀ b, Effect.write b ∉ (sendThenWait c (sendCommand P c env command) ms).async) ∧
      (sendThenWait c (sendCommand P c env command) ms).ret = .timer ms ∧
      (sendThenWait c (sendCommand P c env command) ms).ctrl = c := by
  obtain ⟨h₁, h₂⟩ := sendCommand_connected P c env w hw command
  refine ⟨by simp [sendThenWait, h₁], ?_, rfl, rfl⟩
  intro b hb
  simp only [sendThenWait, List.mem_append] at hb
  rcases hb with hb | hb
  · exact h₂ b hb
  · split at hb <;> simp at hb

/-- C2: on a controller holding a writer, `moveLinearly` and `Jumpto` with the
same arguments each perform exactly one write; the frames written are `"G1"` and
`"G0"` followed by one and the same text, which starts with a blank; each frame
ends with a line feed and holds exactly one. -/
theorem move_and_jump_frames_differ_in_opcode_only (P : Platform ν) (c : MeArmController)
    (env : Env) (w : Writer) (hw : c.writer = some w) (X Y Z F : ν) :
    ∃ move jump rest : Text,
      (moveLinearly P c env X Y Z F).sync = [.write (P.encode move), .setTimeout 500] ∧
      (Jumpto P c env X Y Z F).sync = [.write (P.encode jump), .setTimeout 500] ∧
      (∀ b, Effect.write b ∉ (moveLinearly P c env X Y Z F).async) ∧
      (∀ b, Effect.write b ∉ (Jumpto P c env X Y Z F).async) ∧
      move = "G1".toList ++ rest ∧ jump = "G0".toList ++ rest ∧ rest.head? = some ' ' ∧
      move.getLast? = some '\n' ∧ move.count '\n' = 1 ∧
      jump.getLast? = some '\n' ∧ jump.count '\n' = 1 := by
  have hm := sendThenWait_connected P c env w hw
    ("G1 X".toList ++ P.numToString X ++ " Y".toList ++ P.numToString Y ++
      " Z".toList ++ P.numToString Z ++ " F".toList ++ P.numToString F) 500
  have hj := sendThenWait_connected P c env w hw
    ("G0 X".toList ++ P.numToString X ++ " Y".toList ++ P.numToString Y ++
      " Z".toList ++ P.numToString Z ++ " F".toList ++ P.numToString F) 500
  have hX := P.numToString_noLF X
  have hY := P.numToString_noLF Y
  have hZ := P.numToString_noLF Z
  have hF := P.numToString_noLF F
  have hcount : ∀ a : ν, (P.numToString a).count '\n' = 0 := fun a =>
    List.count_eq_zero.mpr (P.numToString_noLF a)
  refine ⟨_, _, " X".toList ++ P.numToString X ++ " Y".toList ++ P.numToString Y ++
      " Z".toList ++ P.numToString Z ++ " F".toList ++ P.numToString F ++ ['\n'],
    hm.1, hj.1, hm.2.1, hj.2.1, ?_, ?_, ?_, ?_, ?_, ?_, ?_⟩
  · simp
  · simp
  · simp
  · exact getLast?_snoc _ _
  · simp [List.count_cons, hcount]
  · exact getLast?_snoc _ _
  · simp [List.count_cons, hcount]

theorem move_and_jump_frames_differ_in_opcode_only_witness :
    connected.writer = some ⟨1⟩ ∧
    ∃ move jump rest : Text,
      (moveLinearly intPlatform connected (answering []) 100 0 100 900).sync =
        [.write (intPlatform.encode move), .setTimeout 500] ∧
      (Jumpto intPlatform connected (answering []) 100 0 100 900).sync =
        [.write (intPlatform.encode jump), .setTimeout 500] ∧
      (∀ b, Effect.write b ∉ (moveLinearly intPlatform connected (answering []) 100 0 100 900).async) ∧
      (∀ b, Effect.write b ∉ (Jumpto intPlatform connected (answering []) 100 0 100 900).async) ∧
      move = "G1".toList ++ rest ∧ jump = "G0".toList ++ rest ∧ rest.head? = some ' ' ∧
      move.getLast? = some '\n' ∧ move.count '\n' = 1 ∧
      jump.getLast? = some '\n' ∧ jump.count '\n' = 1 :=
  ⟨rfl, move_and_jump_frames_differ_in_opcode_only intPlatform connected (answering []) ⟨1⟩ rfl
    100 0 100 900⟩

/-! ### Commands without a writer -/

theorem sendThenWait_not_connected (P : Platform ν) (c : MeArmController) (env : Env)
    (hw : c.writer = none) (command : Text) (ms : Nat) :
    sendThenWait c (sendCommand P c env command) ms =
      ⟨[.logWarn "MeArm not connected.".toList, .setTimeout ms], [], c, .timer ms⟩ := by
  rw [sendCommand_not_connected P c env hw]
  rfl

theorem reportPosition_not_connected (P : Platform ν) (c : MeArmController) (env : Env)
    (hw : c.writer = none) :
    reportPosition P c env = ⟨[], [], c, .value "ERROR: Not connected".toList⟩ := by
  unfold reportPosition
  rw [hw]

/-- The run of any command on a controller without a writer. -/
theorem run_not_connected (P : Platform ν) (c : MeArmController) (env : Env) (cmd : Command ν)
    (hw : c.writer = none) :
    (∃ ms, cmd.run P c env =
        ⟨[.logWarn "MeArm not connected.".toList, .setTimeout ms], [], c, .timer ms⟩) ∨
      cmd.run P c env = ⟨[], [], c, .value "ERROR: Not connected".toList⟩ := by
  cases cmd with
  | reportPosition => exact Or.inr (reportPosition_not_connected P c env hw)
  | moveLinearly X Y Z F => exact Or.inl ⟨500, sendThenWait_not_connected P c env hw _ 500⟩
  | Jumpto X Y Z F => exact Or.inl ⟨500, sendThenWait_not_connected P c env hw _ 500⟩
  | setGripper a => exact Or.inl ⟨300, sendThenWait_not_connected P c env hw _ 300⟩
  | openGripper => exact Or.inl ⟨300, sendThenWait_not_connected P c env hw _ 300⟩
  | closeGripper => exact Or.inl ⟨300, sendThenWait_not_connected P c env hw _ 300⟩
  | AbsMode => exact Or.inl ⟨50, sendThenWait_not_connected P c env hw _ 50⟩
  | RelMode => exact Or.inl ⟨50, sendThenWait_not_connected P c env hw _ 50⟩

theorem run_not_connected_quiet (P : Platform ν) (c : MeArmController) (env : Env)
    (cmd : Command ν) (hw : c.writer = none) :
    (∀ b, Effect.write b ∉ (cmd.run P c env).effects) ∧
      Effect.read ∉ (cmd.run P c env).effects ∧
      Effect.getReader ∉ (cmd.run P c env).effects ∧
      (cmd.run P c env).ctrl = c := by
  rcases run_not_connected P c env cmd hw with ⟨ms, h⟩ | h <;> rw [h] <;> simp [Run.effects]

/-- C3: on a controller without a writer, every command performs no write on
the transport, takes no reader and reads nothing, and leaves `port` and
`writer` as they were; `reportPosition` returns `"ERROR: Not connected"`. -/
theorem not_connected_command_has_no_transport_effect (P : Platform ν) (c : MeArmController)
    (env : Env) (cmd : Command ν) (hw : c.writer = none) :
    (∀ b, Effect.write b ∉ (cmd.run P c env).effects) ∧
      Effect.read ∉ (cmd.run P c env).effects ∧
      Effect.getReader ∉ (cmd.run P c env).effects ∧
      (cmd.run P c env).ctrl = c ∧
      (reportPosition P c env).ret = .value "ERROR: Not connected".toList := by
  obtain ⟨h₁, h₂, h₃, h₄⟩ := run_not_connected_quiet P c env cmd hw
  exact ⟨h₁, h₂, h₃, h₄, by rw [reportPosition_not_connected P c env hw]⟩

theorem not_connected_command_has_no_transport_effect_witness :
    fresh.writer = none ∧
    (∀ b, Effect.write b ∉
      ((Command.moveLinearly 100 0 100 900).run intPlatform fresh (answering [])).effects) ∧
    Effect.read ∉
      ((Command.moveLinearly 100 0 100 900).run intPlatform fresh (answering [])).effects ∧
    Effect.getReader ∉
      ((Command.moveLinearly 100 0 100 900).run intPlatform fresh (answering [])).effects ∧
    ((Command.moveLinearly 100 0 100 900).run intPlatform fresh (answering [])).ctrl = fresh ∧
    (reportPosition intPlatform fresh (answering [])).ret =
      .value "ERROR: Not connected".toList :=
  ⟨rfl, not_connected_command_has_no_transport_effect intPlatform fresh (answering [])
    (.moveLinearly 100 0 100 900) rfl⟩

/-- C4, as the spec states it, fails: `moveLinearly` on a controller without a
writer writes nothing, yet the promise it returns is the 500 ms timer promise,
the same as on a connected controller. -/
theorem not_connected_move_is_deferred :
    fresh.writer = none ∧
    (moveLinearly intPlatform fresh (answering []) 100 0 100 900).ret = .timer 500 ∧
    (moveLinearly intPlatform fresh (answering []) 100 0 100 900).sync =
      [.logWarn "MeArm not connected.".toList, .setTimeout 500] ∧
    (moveLinearly intPlatform connected (answering []) 100 0 100 900).ret = .timer 500 := by
  decide

/-- The promise a fire-and-forget command returns, whatever the controller and
the platform. -/
theorem run_ret (P : Platform ν) (c : MeArmController) (env : Env) (cmd : Command ν) :
    cmd.fireAndForget = true →
    (cmd.run P c env).ret =
      (match cmd with
        | .moveLinearly _ _ _ _ => .timer 500
        | .Jumpto _ _ _ _ => .timer 500
        | .setGripper _ => .timer 300
        | .openGripper => .timer 300
        | .closeGripper => .timer 300
        | .AbsMode => .timer 50
        | .RelMode => .timer 50
        | .reportPosition => .value "ERROR: Not connected".toList) := by
  intro hf
  cases cmd <;> first | rfl | simp [Command.fireAndForget] at hf

/-- C4 amended: on a controller without a writer a command writes nothing, but
a fire-and-forget command still returns its timer promise (500 for
`moveLinearly` and `Jumpto`, 300 for the gripper commands, 50 for the mode
commands), the same promise as on any other controller; only `reportPosition`
returns at once, with the plain string `"ERROR: Not connected"`. -/
theorem not_connected_command_keeps_settle_delay (P : Platform ν) (c : MeArmController)
    (env : Env) (cmd : Command ν) (hw : c.writer = none) :
    (cmd.run P c env).ret =
        (match cmd with
          | .moveLinearly _ _ _ _ => .timer 500
          | .Jumpto _ _ _ _ => .timer 500
          | .setGripper _ => .timer 300
          | .openGripper => .timer 300
          | .closeGripper => .timer 300
          | .AbsMode => .timer 50
          | .RelMode => .timer 50
          | .reportPosition => .value "ERROR: Not connected".toList) ∧
      (cmd.fireAndForget = true →
        ∀ c' env', (cmd.run P c' env').ret = (cmd.run P c env).ret) ∧
      (∀ b, Effect.write b ∉ (cmd.run P c env).effects) := by
  refine ⟨?_, ?_, (run_not_connected_quiet P c env cmd hw).1⟩
  · by_cases hf : cmd.fireAndForget = true
    · exact run_ret P c env cmd hf
    · cases cmd <;> first | exact absurd rfl hf | skip
      show (reportPosition P c env).ret = _
      rw [reportPosition_not_connected P c env hw]
  · intro hf c' env'
    rw [run_ret P c env cmd hf, run_ret P c' env' cmd hf]

theorem not_connected_command_keeps_settle_delay_witness :
    fresh.writer = none ∧
    ((Command.setGripper 90).run intPlatform fresh (answering [])).ret = .timer 300 ∧
    (∀ c' env', ((Command.setGripper 90).run intPlatform c' env').ret =
      ((Command.setGripper 90).run intPlatform fresh (answering [])).ret) ∧
    (∀ b, Effect.write b ∉ ((Command.setGripper 90).run intPlatform fresh (answering [])).effects) :=
  ⟨rfl,
    (not_connected_command_keeps_settle_delay intPlatform fresh (answering [])
      (.setGripper 90) rfl).1,
    (not_connected_command_keeps_settle_delay intPlatform fresh (answering [])
      (.setGripper 90) rfl).2.1 rfl,
    (not_connected_command_keeps_settle_delay intPlatform fresh (answering [])
      (.setGripper 90) rfl).2.2⟩

/-! ### The read lock -/

/-- C5: in the receive step, once a reader has been taken and the read has
settled (with a chunk, without one, or by failing), the effects are
`getReader`, `read` and then a `releaseLock`; no lock is held when the step
resolves, which it does with a string; after a failed read that string is
`"ERROR: Read failed"`. -/
theorem receive_releases_lock_on_every_exit (P : Platform ν) (env : Env)
    (hreader : env.getReader = .ok ()) (hread : env.read ≠ .never) :
    ∃ (after : List Effect) (result : Text),
      (receive P env).1 = .getReader :: .read :: .releaseLock :: after ∧
      Effect.getReader ∉ after ∧
      lockHeld (receive P env).1 = false ∧
      (receive P env).2 = .fulfilled result ∧
      ((∃ err, env.read = .fail err) → result = "ERROR: Read failed".toList) := by
  unfold receive
  rw [hreader]
  cases hr : env.read with
  | never => exact absurd hr hread
  | fail err =>
    exact ⟨[.logError "Read error:".toList (some err)], _, rfl, by simp, rfl, rfl, fun _ => rfl⟩
  | ok chunk =>
    obtain ⟨value, done⟩ := chunk
    cases value with
    | none => exact ⟨[], _, rfl, by simp, rfl, rfl, fun h => by simp at h⟩
    | some bytes =>
      obtain ⟨first, _, hparse⟩ := parseResponse_eq (P.decode bytes)
      simp only [hparse]
      exact ⟨[], _, rfl, by simp, rfl, rfl, fun h => by simp at h⟩

theorem receive_releases_lock_on_every_exit_witness :
    (receive intPlatform ⟨.ok (), .ok (), .fail ⟨"NetworkError".toList⟩⟩).2 =
        .fulfilled "ERROR: Read failed".toList ∧
      lockHeld (receive intPlatform ⟨.ok (), .ok (), .fail ⟨"NetworkError".toList⟩⟩).1 = false := by
  obtain ⟨after, result, _, _, hlock, hres, hfail⟩ :=
    receive_releases_lock_on_every_exit intPlatform
      ⟨.ok (), .ok (), .fail ⟨"NetworkError".toList⟩⟩ rfl (by simp)
  exact ⟨by rw [hres, hfail ⟨_, rfl⟩], hlock⟩

/-! ### Reads without data -/

/-- C6, as the spec states it, fails: a read that delivers a zero-length chunk,
which decodes to the empty text, makes `reportPosition` resolve to the empty
string, not to `"No response"`. -/
theorem zero_length_chunk_reports_empty_string :
    intPlatform.decode [] = [] ∧
    (reportPosition intPlatform connected ⟨.ok (), .ok (), .ok (some [], false)⟩).ret =
      .promise (.fulfilled []) ∧
    (reportPosition intPlatform connected ⟨.ok (), .ok (), .ok (some [], false)⟩).ret ≠
      .promise (.fulfilled "No response".toList) := by
  decide

/-- C6 amended: when the read delivers no chunk (`value` is `undefined`),
`reportPosition` resolves to `"No response"`; a delivered chunk is parsed
whatever its length, and one that decodes to the empty text gives the empty
string. -/
theorem no_chunk_reports_no_response (P : Platform ν) (c : MeArmController) (env : Env)
    (w : Writer) (port : SerialPort) (hw : c.writer = some w) (hp : c.port = some port)
    (hr : port.readable = true) (hwrite : env.write = .ok ())
    (hreader : env.getReader = .ok ()) :
    (∀ done, env.read = .ok (none, done) →
      (reportPosition P c env).ret = .promise (.fulfilled "No response".toList)) ∧
    (∀ bytes done, env.read = .ok (some bytes, done) → P.decode bytes = [] →
      (reportPosition P c env).ret = .promise (.fulfilled [])) := by
  rw [reportPosition_connected P c env w port hw hp hr hwrite]
  constructor
  · intro done hread
    simp [receive, hreader, hread]
  · intro bytes done hread hempty
    have : parseResponse [] = .ok [] := rfl
    simp [receive, hreader, hread, hempty, this]

theorem no_chunk_reports_no_response_witness :
    (reportPosition intPlatform connected ⟨.ok (), .ok (), .ok (none, true)⟩).ret =
      .promise (.fulfilled "No response".toList) :=
  (no_chunk_reports_no_response intPlatform connected ⟨.ok (), .ok (), .ok (none, true)⟩
    ⟨1⟩ ⟨1, true⟩ rfl rfl rfl rfl rfl).1 true rfl

/-- The run of a fire-and-forget command on a controller that holds a writer. -/
theorem run_connected (P : Platform ν) (c : MeArmController) (env : Env) (w : Writer)
    (hw : c.writer = some w) (cmd : Command ν) (hf : cmd.fireAndForget = true) :
    ∃ command ms, cmd.run P c env = sendThenWait c (sendCommand P c env command) ms ∧
      (cmd.run P c env).sync = [.write (P.encode (command ++ ['\n'])), .setTimeout ms] := by
  cases cmd with
  | reportPosition => simp [Command.fireAndForget] at hf
  | moveLinearly X Y Z F => exact ⟨_, 500, rfl, (sendThenWait_connected P c env w hw _ 500).1⟩
  | Jumpto X Y Z F => exact ⟨_, 500, rfl, (sendThenWait_connected P c env w hw _ 500).1⟩
  | setGripper a => exact ⟨_, 300, rfl, (sendThenWait_connected P c env w hw _ 300).1⟩
  | openGripper => exact ⟨_, 300, rfl, (sendThenWait_connected P c env w hw _ 300).1⟩
  | closeGripper => exact ⟨_, 300, rfl, (sendThenWait_connected P c env w hw _ 300).1⟩
  | AbsMode => exact ⟨_, 50, rfl, (sendThenWait_connected P c env w hw _ 50).1⟩
  | RelMode => exact ⟨_, 50, rfl, (sendThenWait_connected P c env w hw _ 50).1⟩

/-! ### Connecting -/

/-- The run of `connect` when the port is granted, its open succeeds and the
writer is handed over. -/
theorem connect_success (c : MeArmController) (env : ConnectEnv) (port : SerialPort)
    (w : Writer) (hs : env.serialSupported = true) (hq : env.requestPort = .ok port)
    (ho : env.openPort = .ok ()) (hg : env.getWriter = .ok w) :
    connect c env =
      ⟨[.logLog "Requesting serial port...".toList, .requestPort],
        [.openPort 115200, .logLog "Serial port opened.".toList, .getWriter,
          .logLog "MeArm connected via Web Serial!".toList],
        ⟨some port, some w⟩, .undefined⟩ := by
  simp [connect, hs, hq, ho, hg]

/-- C7: on a controller without a writer, a `connect` in which the port request
or the port open does not succeed leaves `writer` null, so every later command
writes nothing and `reportPosition` returns `"ERROR: Not connected"`; if
`connect` leaves a writer, the port was granted and its open succeeded, and the
writer was taken after the open; `connect` leaves a writer if and only if the
platform offers serial ports, grants one, opens it and hands over a writer;
and in that case the controller holds exactly that port and that writer, after
the effects open, log, `getWriter`, log, and every fire-and-forget command then
writes its frame. -/
theorem connect_sets_writer_only_after_open (c : MeArmController) (env : ConnectEnv)
    (hw : c.writer = none) :
    (((∀ port, env.requestPort ≠ .ok port) ∨ env.openPort ≠ .ok ()) →
      (connect c env).ctrl.writer = none ∧
      ∀ (ν : Type) (P : Platform ν) (cmd : Command ν) (env' : Env),
        (∀ b, Effect.write b ∉ (cmd.run P (connect c env).ctrl env').effects) ∧
        (reportPosition P (connect c env).ctrl env').ret =
          .value "ERROR: Not connected".toList) ∧
    ((connect c env).ctrl.writer ≠ none →
      env.serialSupported = true ∧ (∃ port, env.requestPort = .ok port) ∧
      env.openPort = .ok () ∧
      ∃ before after, (connect c env).async = before ++ .getWriter :: after ∧
        Effect.openPort 115200 ∈ before) ∧
    ((connect c env).ctrl.writer ≠ none ↔
      (env.serialSupported = true ∧ (∃ port, env.requestPort = .ok port) ∧
        env.openPort = .ok () ∧ ∃ w, env.getWriter = .ok w)) ∧
    (∀ port w, env.serialSupported = true → env.requestPort = .ok port →
      env.openPort = .ok () → env.getWriter = .ok w →
      (connect c env).ctrl = ⟨some port, some w⟩ ∧
      (connect c env).async =
        [.openPort 115200, .logLog "Serial port opened.".toList, .getWriter,
          .logLog "MeArm connected via Web Serial!".toList] ∧
      ∀ (ν : Type) (P : Platform ν) (cmd : Command ν) (env' : Env),
        cmd.fireAndForget = true →
        ∃ command ms, (cmd.run P (connect c env).ctrl env').sync =
          [.write (P.encode (command ++ ['\n'])), .setTimeout ms]) := by
  have key : (connect c env).ctrl.writer ≠ none →
      (env.serialSupported = true ∧ (∃ port, env.requestPort = .ok port) ∧
        env.openPort = .ok () ∧
        ∃ before after, (connect c env).async = before ++ .getWriter :: after ∧
          Effect.openPort 115200 ∈ before) ∧
      ∃ w, env.getWriter = .ok w := by
    unfold connect
    cases hs : env.serialSupported with
    | false => simp [hw]
    | true =>
      cases hq : env.requestPort with
      | never => simp [hw]
      | fail err => simp [hw]
      | ok port =>
        cases ho : env.openPort with
        | never => simp [hw]
        | fail err => simp [hw]
        | ok u =>
          cases hg : env.getWriter with
          | error err => simp [hw]
          | ok wr =>
            intro _
            exact ⟨⟨rfl, ⟨port, rfl⟩, rfl,
              [.openPort 115200, .logLog "Serial port opened.".toList],
              [.logLog "MeArm connected via Web Serial!".toList], rfl, by simp⟩, wr, rfl⟩
  refine ⟨?_, fun h => (key h).1, ⟨?_, ?_⟩, ?_⟩
  · intro hfail
    have hnone : (connect c env).ctrl.writer = none := by
      by_contra hne
      obtain ⟨⟨_, ⟨port, hport⟩, hopen, _⟩, _⟩ := key hne
      rcases hfail with h | h
      · exact h port hport
      · exact h hopen
    refine ⟨hnone, ?_⟩
    intro ν P cmd env'
    exact ⟨(run_not_connected_quiet P _ env' cmd hnone).1,
      by rw [reportPosition_not_connected P _ env' hnone]⟩
  · intro h
    obtain ⟨⟨h₁, h₂, h₃, _⟩, h₄⟩ := key h
    exact ⟨h₁, h₂, h₃, h₄⟩
  · rintro ⟨hs, ⟨port, hq⟩, ho, ⟨w, hg⟩⟩
    rw [connect_success c env port w hs hq ho hg]
    simp
  · intro port w hs hq ho hg
    rw [connect_success c env port w hs hq ho hg]
    refine ⟨rfl, rfl, ?_⟩
    intro ν P cmd env' hf
    obtain ⟨command, ms, _, hsync⟩ :=
      run_connected P ⟨some port, some w⟩ env' w rfl cmd hf
    exact ⟨command, ms, hsync⟩

theorem connect_sets_writer_only_after_open_witness :
    fresh.writer = none ∧
    ((connect fresh ⟨true, .fail ⟨"No port selected by the user.".toList⟩, .never, .ok ⟨1⟩⟩).ctrl.writer
        = none ∧
      ∀ b, Effect.write b ∉ ((Command.AbsMode).run intPlatform
        (connect fresh ⟨true, .fail ⟨"No port selected by the user.".toList⟩, .never, .ok ⟨1⟩⟩).ctrl
        (answering [])).effects) ∧
    (connect fresh ⟨true, .ok ⟨7, true⟩, .ok (), .ok ⟨3⟩⟩).ctrl = ⟨some ⟨7, true⟩, some ⟨3⟩⟩ ∧
    (connect fresh ⟨true, .ok ⟨7, true⟩, .ok (), .ok ⟨3⟩⟩).ctrl.writer ≠ none ∧
    (connect fresh ⟨true, .ok ⟨7, true⟩, .fail ⟨"Failed to open serial port.".toList⟩,
      .ok ⟨3⟩⟩).ctrl.writer = none :=
  ⟨rfl,
    ⟨((connect_sets_writer_only_after_open fresh
        ⟨true, .fail ⟨"No port selected by the user.".toList⟩, .never, .ok ⟨1⟩⟩ rfl).1
        (Or.inl (by simp))).1,
      (((connect_sets_writer_only_after_open fresh
        ⟨true, .fail ⟨"No port selected by the user.".toList⟩, .never, .ok ⟨1⟩⟩ rfl).1
        (Or.inl (by simp))).2 Int intPlatform .AbsMode (answering [])).1⟩,
    ((connect_sets_writer_only_after_open fresh ⟨true, .ok ⟨7, true⟩, .ok (), .ok ⟨3⟩⟩
      rfl).2.2.2 ⟨7, true⟩ ⟨3⟩ rfl rfl rfl rfl).1,
    (connect_sets_writer_only_after_open fresh ⟨true, .ok ⟨7, true⟩, .ok (), .ok ⟨3⟩⟩
      rfl).2.2.1.mpr ⟨rfl, ⟨_, rfl⟩, rfl, ⟨_, rfl⟩⟩,
    ((connect_sets_writer_only_after_open fresh
      ⟨true, .ok ⟨7, true⟩, .fail ⟨"Failed to open serial port.".toList⟩, .ok ⟨3⟩⟩ rfl).1
      (Or.inr (by simp))).1⟩

/-! ### Failed writes -/

/-- C8: the code breaks the claim.  On a connected controller whose write is
rejected, `reportPosition` performs the write and nothing else, and the promise
it returns is rejected with the write error: no handler turns it into a string.
On the same controller a rejected read is caught by the handler next to it and
gives `"ERROR: Read failed"`, and a rejected port open is caught by `connect`
and logged. -/
theorem reportPosition_write_failure_rejects :
    connected.writer = some ⟨1⟩ ∧
    (reportPosition intPlatform connected writeFailing).ret =
      .promise (.rejected ⟨"NetworkError".toList⟩) ∧
    (reportPosition intPlatform connected writeFailing).effects =
      [.write (intPlatform.encode "M114\n".toList)] ∧
    (reportPosition intPlatform connected
        ⟨.ok (), .ok (), .fail ⟨"NetworkError".toList⟩⟩).ret =
      .promise (.fulfilled "ERROR: Read failed".toList) ∧
    (connect fresh ⟨true, .ok ⟨7, true⟩, .fail ⟨"NetworkError".toList⟩, .ok ⟨3⟩⟩).async =
      [.openPort 115200, .logError "There was an error: NetworkError".toList none] ∧
    ((Command.RelMode).run intPlatform connected writeFailing).async =
      [.unhandledRejection ⟨"NetworkError".toList⟩] := by
  decide

/-! ### Overlapping commands -/

/-- C9, as the spec states it, fails: `Jumpto` called 100 ms after
`moveLinearly`, whose 500 ms delay has not passed, is not rejected: it writes
its frame at once. -/
theorem command_during_settle_delay_is_written :
    connected.writer = some ⟨1⟩ ∧
    session intPlatform connected
        [⟨0, .moveLinearly 100 0 100 900, answering []⟩,
         ⟨100, .Jumpto 10 0 5 300, answering []⟩] =
      [⟨0, .write (intPlatform.encode "G1 X100 Y0 Z100 F900\n".toList)⟩,
       ⟨0, .setTimeout 500⟩,
       ⟨100, .write (intPlatform.encode "G0 X10 Y0 Z5 F300\n".toList)⟩,
       ⟨100, .setTimeout 500⟩] := by
  decide

/-- No command assigns `port` or `writer`. -/
theorem run_ctrl (P : Platform ν) (c : MeArmController) (env : Env) (cmd : Command ν) :
    (cmd.run P c env).ctrl = c := by
  cases cmd with
  | reportPosition =>
    show (reportPosition P c env).ctrl = c
    unfold reportPosition
    split
    · rfl
    · split
      · rfl
      · split
        · rfl
        · dsimp only
          split <;> rfl
  | _ => rfl

/-- C9 amended: the controller keeps no record of a command in flight.  On a
connected controller a command called after another one, at whatever time,
runs exactly as it would alone, and a fire-and-forget command writes its frame
at the moment it is called. -/
theorem command_runs_regardless_of_earlier_one (P : Platform ν) (c : MeArmController)
    (w : Writer) (hw : c.writer = some w) (i₁ i₂ : Invocation ν) :
    session P c [i₁, i₂] =
        (i₁.cmd.run P c i₁.env).sync.map (Stamped.mk i₁.time) ++
          (i₂.cmd.run P c i₂.env).sync.map (Stamped.mk i₂.time) ∧
      (i₂.cmd.fireAndForget = true →
        ∃ buffer, Stamped.mk i₂.time (.write buffer) ∈ session P c [i₁, i₂]) := by
  have hs : session P c [i₁, i₂] =
      (i₁.cmd.run P c i₁.env).sync.map (Stamped.mk i₁.time) ++
        (i₂.cmd.run P c i₂.env).sync.map (Stamped.mk i₂.time) := by
    simp [session, run_ctrl]
  refine ⟨hs, ?_⟩
  intro hf
  obtain ⟨command, ms, _, hsync⟩ := run_connected P c i₂.env w hw i₂.cmd hf
  exact ⟨P.encode (command ++ ['\n']), by rw [hs, hsync]; simp⟩

theorem command_runs_regardless_of_earlier_one_witness :
    connected.writer = some ⟨1⟩ ∧
    ∃ buffer, Stamped.mk 100 (.write buffer) ∈
      session intPlatform connected
        [⟨0, .moveLinearly 100 0 100 900, answering []⟩, ⟨100, .closeGripper, answering []⟩] :=
  ⟨rfl, (command_runs_regardless_of_earlier_one intPlatform connected ⟨1⟩ rfl
    ⟨0, .moveLinearly 100 0 100 900, answering []⟩ ⟨100, .closeGripper, answering []⟩).2 rfl⟩

/-! ### The gripper -/

/-- C10: on a controller holding a writer, `setGripper` writes the one frame
`"M106 S"`, the text of the angle, line feed, and returns the 300 ms timer
promise; `openGripper` and `closeGripper` are the same runs as `setGripper`
with 120 and with 30, which on decimal numbers write `"M106 S120\n"` and
`"M106 S30\n"`. -/
theorem gripper_presets_are_setGripper (P : Platform ν) (c : MeArmController) (env : Env)
    (w : Writer) (hw : c.writer = some w) (a : ν) :
    (setGripper P c env a).sync =
        [.write (P.encode ("M106 S".toList ++ P.numToString a ++ ['\n'])), .setTimeout 300] ∧
      (∀ b, Effect.write b ∉ (setGripper P c env a).async) ∧
      (setGripper P c env a).ret = .timer 300 ∧
      openGripper P c env = setGripper P c env (P.num 120) ∧
      closeGripper P c env = setGripper P c env (P.num 30) ∧
      (openGripper P c env).ret = .timer 300 ∧
      (closeGripper P c env).ret = .timer 300 ∧
      (openGripper intPlatform c env).sync =
        [.write (intPlatform.encode "M106 S120\n".toList), .setTimeout 300] ∧
      (closeGripper intPlatform c env).sync =
        [.write (intPlatform.encode "M106 S30\n".toList), .setTimeout 300] := by
  have h := sendThenWait_connected P c env w hw ("M106 S".toList ++ P.numToString a) 300
  have ho := sendThenWait_connected intPlatform c env w hw
    ("M106 S".toList ++ intPlatform.numToString (intPlatform.num 120)) 300
  have hc := sendThenWait_connected intPlatform c env w hw
    ("M106 S".toList ++ intPlatform.numToString (intPlatform.num 30)) 300
  exact ⟨h.1, h.2.1, h.2.2.1, rfl, rfl, rfl, rfl, ho.1, hc.1⟩

theorem gripper_presets_are_setGripper_witness :
    connected.writer = some ⟨1⟩ ∧
    (setGripper intPlatform connected (answering []) 90).sync =
      [.write (intPlatform.encode "M106 S90\n".toList), .setTimeout 300] ∧
    openGripper intPlatform connected (answering []) =
      setGripper intPlatform connected (answering []) 120 :=
  ⟨rfl,
    (gripper_presets_are_setGripper intPlatform connected (answering []) ⟨1⟩ rfl 90).1,
    (gripper_presets_are_setGripper intPlatform connected (answering []) ⟨1⟩ rfl 90).2.2.2.1⟩

end MeArm
